import Mathlib

/-!
Verification of the pydantic-xml model layer (`src/pydantic_xml/model.py`)
against its specification.

The XML machinery is embedded shallowly.  Namespaces are carried inside tag
and attribute strings in Clark notation (`\x7bns\x7dtag`), exactly as the
native element library does: the code compares `root.tag` with the compiled
serializer's `element_name`, both of which are such qualified strings.

The serializer-graph internals (package `pydantic_xml.serializers`, the
element adapter and `utils`/`config`) are not part of the provided sources;
definitions for them are modelled from the specification and say so in
their doc comments.  Everything taken from `model.py` follows that file.
-/

namespace PydanticXml

/-- Thin model of a native XML element tree (the external element library):
a tag, an ordered attribute list, ordered children and optional text. -/
structure Element where
  tag : String
  attrs : List (String × String)
  children : List Element
  text : Option String
deriving Repr

/-- Errors surfaced by the conversion entry points (spec section 7). -/
inductive XmlError where
  | assertionError (model : String)
  | parsingError (actual expected : String)
  | ambiguousChild (tag : String)
  | missingField
deriving Repr, DecidableEq

/-- Modelled from the spec: a compiled Placement Descriptor with the path
already resolved (default-to-field-name applied by the Schema Compiler).
`wrappedD path inner` is the intermediate element named `path` holding the
recursively described inner entity (spec section 3). -/
inductive FieldDescriptor where
  | attrD (name : String)
  | elemD (tag : String)
  | wrappedD (path : String) (inner : FieldDescriptor)
deriving Repr, DecidableEq

/-- Modelled from the spec: the Serializer Graph for one compiled record
type — its own qualified element name plus one node per field
(spec sections 2 and 4.2, step 3). -/
structure CompiledSerializer where
  element_name : String
  schema : List FieldDescriptor
deriving Repr, DecidableEq

/-- Modelled from the spec: one field node's `serialize` contribution —
mutate the target element by adding this node's attribute or child
(spec section 4.3). -/
def serializeField (d : FieldDescriptor) (v : String) (el : Element) : Element :=
  match d with
  | .attrD n => { el with attrs := el.attrs ++ [(n, v)] }
  | .elemD t => { el with children := el.children ++ [⟨t, [], [], some v⟩] }
  | .wrappedD p inner =>
      { el with children := el.children ++ [serializeField inner v ⟨p, [], [], none⟩] }

/-- Modelled from the spec: the Root node's `serialize` — create the owning
element and let every field node contribute, in declaration order
(spec section 4.3). -/
def serializeModel (s : CompiledSerializer) (vals : List String) : Element :=
  (s.schema.zip vals).foldl (fun el dv => serializeField dv.1 dv.2 el)
    ⟨s.element_name, [], [], none⟩

/-- Attribute lookup by name: first binding wins, `none` when absent. -/
def lookupAttr (n : String) : List (String × String) → Option String
  | [] => none
  | (k, v) :: rest => if k = n then some v else lookupAttr n rest

/-- Modelled from the spec: strict search mode — exactly one child with the
requested tag is allowed; zero yields `MISSING` (the absent case of the
node contracts in section 4.3), more than one is the ambiguous-child error
(spec sections 4.4 and 7). -/
def findStrict (t : String) (children : List Element) : Except XmlError (Option Element) :=
  match children.filter (fun c => c.tag = t) with
  | [] => .ok none
  | [c] => .ok (some c)
  | _ => .error (.ambiguousChild t)

/-- Modelled from the spec: one field node's `deserialize` — extract the
field's raw value from the source element or return the `MISSING` sentinel
(`none`) when absent (spec section 4.3). -/
def deserializeField (el : Element) : FieldDescriptor → Except XmlError (Option String)
  | .attrD n => .ok (lookupAttr n el.attrs)
  | .elemD t => (findStrict t el.children).map (fun oc => oc.bind (fun c => c.text))
  | .wrappedD p inner =>
      (findStrict p el.children).bind (fun oc =>
        match oc with
        | none => .ok none
        | some c => deserializeField c inner)

/-- Field-by-field deserialization against the owning element, in
declaration order, stopping at the first error. -/
def deserializeFields (el : Element) : List FieldDescriptor → Except XmlError (List (Option String))
  | [] => .ok []
  | d :: rest =>
      match deserializeField el d with
      | .error e => .error e
      | .ok v =>
          match deserializeFields el rest with
          | .error e => .error e
          | .ok vs => .ok (v :: vs)

/-- Modelled from the spec: the Root node's `deserialize` — resolve every
field (value or `MISSING`) against the owning element (spec section 4.3). -/
def deserializeModel (s : CompiledSerializer) (el : Element) :
    Except XmlError (List (Option String)) :=
  deserializeFields el s.schema

/-- Modelled from the spec: the validation layer's construct primitive for a
record with no declared defaults — every `MISSING` field is a
missing-required-value error, otherwise the value map becomes the record
(spec sections 4.3 and 7). -/
def constructRecord : List (Option String) → Except XmlError (List String)
  | [] => .ok []
  | none :: _ => .error .missingField
  | some v :: rest =>
      match constructRecord rest with
      | .error e => .error e
      | .ok vs => .ok (v :: vs)

/-- Attribute name contributed by a descriptor, if it is attribute-located. -/
def attrName : FieldDescriptor → Option String
  | .attrD n => some n
  | _ => none

/-- Tag of the top-level child element contributed by a descriptor, if any. -/
def topTag : FieldDescriptor → Option String
  | .attrD _ => none
  | .elemD t => some t
  | .wrappedD p _ => some p

/-- Schema well-formedness used by the round-trip property: attribute names
are pairwise distinct and top-level child tags are pairwise distinct (the
collision case is the spec's explicit last-write-wins open question,
section 9, and excluded from the round-trip claim). -/
def wfSchema (schema : List FieldDescriptor) : Prop :=
  (schema.filterMap attrName).Nodup ∧ (schema.filterMap topTag).Nodup

instance (schema : List FieldDescriptor) : Decidable (wfSchema schema) :=
  inferInstanceAs (Decidable (_ ∧ _))

/-! ## Namespace maps and the process-wide Namespace Registry -/

/-- A namespace map as supplied in declarations: prefix to URI bindings. -/
def NsMap := List (String × String)
deriving Repr, DecidableEq

/-- The Namespace Registry: URI to preferred-prefix bindings
(spec section 3). -/
def Registry := List (String × String)
deriving Repr, DecidableEq

/-- One registration: bind `uri` to `pfx`, last write wins, appended when
the URI is new (spec section 3: append-only, later registration of the
same URI overwrites). -/
def registryInsert (uri pfx : String) : Registry → Registry
  | [] => [(uri, pfx)]
  | (u, p) :: rest =>
      if u = uri then (u, pfx) :: rest else (u, p) :: registryInsert uri pfx rest

/-- Modelled from the spec: `utils.register_nsmap` (module `utils` is not
under the provided sources) — record every prefix-to-URI binding of the map
into the Registry as URI-to-prefix, last write wins (spec section 3). -/
def registerNsmap (m : NsMap) (reg : Registry) : Registry :=
  m.foldl (fun r kv => registryInsert kv.2 kv.1 r) reg

/-- Truthiness of an optional namespace map as Python sees it: present and
non-empty. -/
def nsmapTruthy : Option NsMap → Bool
  | none => false
  | some m => !(List.isEmpty m)

/-- Conditional registration as done by the declaration helpers and the
type-construction hook: only when the global auto-register option
(`config.REGISTER_NS_PREFIXES`, modelled as the `flag` argument) is enabled
and the map is truthy. -/
def registerIf (flag : Bool) (nsmap : Option NsMap) (reg : Registry) : Registry :=
  if flag && nsmapTruthy nsmap then registerNsmap (nsmap.getD []) reg else reg

/-! ## Placement Descriptors (`model.py` lines 29-200) -/

/-- `typedefs.EntityLocation` (declared outside the provided sources; its
three members are fixed by the spec's location kinds, section 3). -/
inductive EntityLocation where
  | ATTRIBUTE
  | ELEMENT
  | WRAPPED
deriving Repr, DecidableEq

/-- `element.SearchMode` (declared outside the provided sources; the spec
names strict as the default plus ordered/first-match modes, section 4.4). -/
inductive SearchMode where
  | STRICT
  | ORDERED
  | UNORDERED
deriving Repr, DecidableEq

/-- The pydantic `FieldInfo` constructor arguments relevant here: the three
alias settings plus a representative pass-through argument (`default`). -/
structure PdFieldKwargs where
  aliasKw : Option String
  serialization_alias : Option String
  validation_alias : Option String
  defaultValue : Option String
deriving Repr, DecidableEq

/-- A pydantic field descriptor: either a plain `pd.fields.FieldInfo` or an
`XmlEntityInfo` (model.py line 119) carrying the xml slots `location`,
`path`, `ns`, `nsmap`, `wrapped` on top of the field kwargs. -/
inductive FieldInfo where
  | plain (kwargs : PdFieldKwargs)
  | xml (location : Option EntityLocation) (path ns : Option String)
      (nsmap : Option NsMap) (wrappedEnt : Option FieldInfo) (kwargs : PdFieldKwargs)
deriving Repr

/-- The pydantic kwargs stored on a field descriptor.  For the wrapped-copy
loop of `XmlEntityInfo.__init__` (model.py lines 136-139) this is what
`utils.get_slots` (not under the provided sources) exposes: the slots over
the whole class hierarchy, hence in particular the pydantic `FieldInfo`
arguments — the code's own comment says the copy is there "to let pydantic
know how to process the field". -/
def FieldInfo.kwargsOf : FieldInfo → PdFieldKwargs
  | .plain kwargs => kwargs
  | .xml _ _ _ _ _ kwargs => kwargs

/-- Python's `isinstance(wrapped, XmlEntityInfo)` check (model.py line 152). -/
def FieldInfo.isXmlEntity : FieldInfo → Bool
  | .plain _ => false
  | .xml _ _ _ _ _ _ => true

/-- The `wrapped` slot of a field descriptor (`none` on plain field infos). -/
def FieldInfo.wrappedOf : FieldInfo → Option FieldInfo
  | .plain _ => none
  | .xml _ _ _ _ w _ => w

/-- The `location` slot of a field descriptor (`none` on plain field infos). -/
def FieldInfo.locationOf : FieldInfo → Option EntityLocation
  | .plain _ => none
  | .xml l _ _ _ _ _ => l

/-- `XmlEntityInfo.__init__` (model.py lines 126-155): copy the wrapped
entity's slots over the kwargs when a wrapped entity is given, default the
missing serialization/validation alias from `alias`, keep the wrapped
entity only when it is itself an `XmlEntityInfo`, and register the
namespace map when the auto-register option is enabled.  Returns the
constructed descriptor together with the updated Registry. -/
def xmlEntityInfoInit (flag : Bool) (reg : Registry) (location : Option EntityLocation)
    (path ns : Option String) (nsmap : Option NsMap) (wrappedEnt : Option FieldInfo)
    (kwargs : PdFieldKwargs) : FieldInfo × Registry :=
  let kwargs := match wrappedEnt with
    | some w => w.kwargsOf
    | none => kwargs
  let kwargs := { kwargs with
    serialization_alias := kwargs.serialization_alias.orElse (fun _ => kwargs.aliasKw) }
  let kwargs := { kwargs with
    validation_alias := kwargs.validation_alias.orElse (fun _ => kwargs.aliasKw) }
  let kept := match wrappedEnt with
    | some w => if w.isXmlEntity then some w else none
    | none => none
  (.xml location path ns nsmap kept kwargs, registerIf flag nsmap reg)

/-- `attr` (model.py lines 158-167); the namespace map may still reach
`XmlEntityInfo.__init__` through the forwarded pydantic kwargs. -/
def attr (flag : Bool) (reg : Registry) (name ns : Option String) (nsmap : Option NsMap)
    (kwargs : PdFieldKwargs) : FieldInfo × Registry :=
  xmlEntityInfoInit flag reg (some .ATTRIBUTE) name ns nsmap none kwargs

/-- `element` (model.py lines 170-180). -/
def element (flag : Bool) (reg : Registry) (tag ns : Option String) (nsmap : Option NsMap)
    (kwargs : PdFieldKwargs) : FieldInfo × Registry :=
  xmlEntityInfoInit flag reg (some .ELEMENT) tag ns nsmap none kwargs

/-- `wrapped` (model.py lines 183-200). -/
def wrapped (flag : Bool) (reg : Registry) (path : String) (entity : Option FieldInfo)
    (ns : Option String) (nsmap : Option NsMap) (kwargs : PdFieldKwargs) :
    FieldInfo × Registry :=
  xmlEntityInfoInit flag reg (some .WRAPPED) (some path) ns nsmap entity kwargs

/-- `ComputedXmlEntityInfo` (model.py lines 29-45): computed-field xml
meta-information; its `wrapped` slot exists only for protocol compliance
and is always `none`. -/
structure ComputedInfo where
  location : Option EntityLocation
  path : Option String
  ns : Option String
  nsmap : Option NsMap
  wrappedEnt : Option FieldInfo
deriving Repr

/-- `computed_entity` (model.py lines 51-76) combined with
`ComputedXmlEntityInfo.__post_init__` (lines 43-45), which performs the
conditional Registry registration at declaration time. -/
def computedEntity (flag : Bool) (reg : Registry) (location : EntityLocation)
    (path ns : Option String) (nsmap : Option NsMap) : ComputedInfo × Registry :=
  (⟨some location, path, ns, nsmap, none⟩, registerIf flag nsmap reg)

/-- `computed_attr` (model.py lines 79-95); a namespace map can reach
`computed_entity` through the forwarded kwargs, which it pops. -/
def computed_attr (flag : Bool) (reg : Registry) (name ns : Option String)
    (nsmap : Option NsMap) : ComputedInfo × Registry :=
  computedEntity flag reg .ATTRIBUTE name ns nsmap

/-- `computed_element` (model.py lines 98-116). -/
def computed_element (flag : Bool) (reg : Registry) (tag ns : Option String)
    (nsmap : Option NsMap) : ComputedInfo × Registry :=
  computedEntity flag reg .ELEMENT tag ns nsmap

/-! ## Type-level xml settings (`BaseXmlModel.__init_subclass__`, lines 240-268) -/

/-- The six class-level xml settings of `BaseXmlModel`. -/
structure XmlSettings where
  tag : Option String
  ns : Option String
  nsmap : Option NsMap
  ns_attrs : Bool
  skip_empty : Option Bool
  search_mode : SearchMode
deriving Repr, DecidableEq

/-- What `getattr(cls, ..., default)` yields on a direct subclass of
`BaseXmlModel`, which annotates the class variables without assigning
them: `None`/`False`/`STRICT` per `__init_subclass__`'s fallbacks. -/
def defaultXmlSettings : XmlSettings :=
  ⟨none, none, none, false, none, .STRICT⟩

/-- The keyword arguments a subclass definition may supply
(`tag=...`, `ns=...`, and so on); `none` stands for not supplied. -/
structure SubclassKw where
  tag : Option String
  ns : Option String
  nsmap : Option NsMap
  ns_attrs : Option Bool
  skip_empty : Option Bool
  search_mode : Option SearchMode
deriving Repr, DecidableEq

/-- `BaseXmlModel.__init_subclass__` (model.py lines 240-268): each setting
is the supplied argument when not `None`, and otherwise the value found by
attribute lookup, i.e. the nearest ancestor's stored setting. -/
def initSubclass (parent : XmlSettings) (kw : SubclassKw) : XmlSettings where
  tag := kw.tag.orElse (fun _ => parent.tag)
  ns := kw.ns.orElse (fun _ => parent.ns)
  nsmap := kw.nsmap.orElse (fun _ => parent.nsmap)
  ns_attrs := kw.ns_attrs.getD parent.ns_attrs
  skip_empty := kw.skip_empty.orElse (fun _ => parent.skip_empty)
  search_mode := kw.search_mode.getD parent.search_mode

/-- Settings of a class reached through a chain of subclass definitions
below `BaseXmlModel`; the list is ordered nearest first (the class's own
subclass keyword arguments, then its parent's, and so on). -/
def settingsOfChain (chain : List SubclassKw) : XmlSettings :=
  chain.foldr (fun kw parent => initSubclass parent kw) defaultXmlSettings

/-! ## The type-construction hook and the conversion entry points
(`model.py` lines 203-399) -/

/-- The `root` field's declared annotation on a pydantic root model:
either still a bare `TypeVar` or some concrete type expression. -/
inductive RootAnnotation where
  | typeVar
  | concrete
deriving Repr, DecidableEq

/-- The class-level state a compiled (or deferred) xml model type carries:
the pydantic metadata consulted by `__build_serializer__` plus the cached
`__xml_serializer__`.  `fieldSchema` stands for the placement information
the Schema Compiler extracts from `__pydantic_core_schema__`. -/
structure ClassState where
  className : String
  isRootModel : Bool
  hasGenericParams : Bool
  rootFieldAnn : Option RootAnnotation
  pydanticComplete : Bool
  tag : Option String
  ns : Option String
  nsmap : Option NsMap
  fieldSchema : List FieldDescriptor
  serializer : Option CompiledSerializer
deriving Repr, DecidableEq

/-- The qualified (Clark-notation) element name for a tag under an optional
namespace, as the native element library spells it. -/
def qname (ns : Option String) (tag : String) : String :=
  match ns with
  | none => tag
  | some u => "\x7b" ++ u ++ "\x7d" ++ tag

/-- Modelled from the spec: `Serializer.parse_core_schema` (package
`serializers`, not under the provided sources) — the Schema Compiler,
producing the graph root carrying the type's own tag (defaulting to the
declared class name) and namespace (spec section 4.2, step 3). -/
def compileSerializer (s : ClassState) : CompiledSerializer :=
  ⟨qname s.ns (s.tag.getD s.className), s.fieldSchema⟩

/-- The serializer `__build_serializer__` leaves behind: `none` exactly on
the code's deferral paths (model.py lines 275-284 and 289-307). -/
def computeSerializer (s : ClassState) : Option CompiledSerializer :=
  if s.isRootModel then
    if s.hasGenericParams ∧ (s.rootFieldAnn = none ∨ s.rootFieldAnn = some .typeVar) then
      none
    else if s.pydanticComplete then some (compileSerializer s) else none
  else
    if s.hasGenericParams then none
    else if s.pydanticComplete then some (compileSerializer s) else none

/-- `BaseXmlModel.__build_serializer__` (model.py lines 270-307): defer on
open generic parameters (with the root-model exception), register the
class namespace map, compile when the pydantic schema is complete and
cache the result, otherwise leave the serializer absent. -/
def buildSerializer (flag : Bool) (s : ClassState) (reg : Registry) :
    ClassState × Registry :=
  if s.isRootModel then
    if s.hasGenericParams ∧ (s.rootFieldAnn = none ∨ s.rootFieldAnn = some .typeVar) then
      ({ s with serializer := none }, reg)
    else
      let reg := registerIf flag s.nsmap reg
      if s.pydanticComplete then
        ({ s with serializer := some (compileSerializer s) }, reg)
      else
        ({ s with serializer := none }, reg)
  else
    if s.hasGenericParams then
      ({ s with serializer := none }, reg)
    else
      let reg := registerIf flag s.nsmap reg
      if s.pydanticComplete then
        ({ s with serializer := some (compileSerializer s) }, reg)
      else
        ({ s with serializer := none }, reg)

/-- `BaseXmlModel.model_rebuild` (model.py lines 309-314): first the
pydantic rebuild, which resolves still-open forward references when the
environment now permits (`resolves`), then a retry of
`__build_serializer__` exactly when the serializer is absent and the
schema is complete. -/
def modelRebuild (resolves flag : Bool) (s : ClassState) (reg : Registry) :
    ClassState × Registry :=
  let s1 := { s with pydanticComplete := s.pydanticComplete || resolves }
  if s1.serializer = none ∧ s1.pydanticComplete then
    buildSerializer flag s1 reg
  else
    (s1, reg)

/-- `BaseXmlModel.from_xml_tree` (model.py lines 316-334): assert the
serializer is present, compare the root tag with the compiled element
name, and either deserialize or raise `errors.ParsingError`. -/
def from_xml_tree (s : ClassState) (root : Element) : Except XmlError (List String) :=
  match s.serializer with
  | none => .error (.assertionError s.className)
  | some ser =>
      if root.tag = ser.element_name then
        (deserializeModel ser root).bind constructRecord
      else
        .error (.parsingError root.tag ser.element_name)

/-- `BaseXmlModel.from_xml` (model.py lines 336-346): parse the source with
the external `etree.fromstring` (whose output element is taken as the
argument here) and delegate to `from_xml_tree`. -/
def from_xml (s : ClassState) (parsedSource : Element) : Except XmlError (List String) :=
  from_xml_tree s parsedSource

/-- Emptiness test used by the skip-empty policy: no attributes, no
children and no text. -/
def elementIsEmpty (el : Element) : Bool :=
  el.attrs.isEmpty && el.children.isEmpty && el.text.isNone

mutual

/-- Modelled from the spec: the skip-empty pruning policy — drop child
elements that carry no data, applied recursively bottom-up
(spec sections 4.3 and the glossary). -/
def pruneEmpty : Element → Element
  | .mk t attrs children text =>
      .mk t attrs ((pruneEmptyList children).filter (fun c => !elementIsEmpty c)) text

/-- Bottom-up pruning of a list of children. -/
def pruneEmptyList : List Element → List Element
  | [] => []
  | e :: es => pruneEmpty e :: pruneEmptyList es

end

/-- `BaseXmlModel.to_xml_tree` (model.py lines 348-367): assert the
serializer is present, create the root element under the compiled element
name and let the serializer graph fill it, honoring `skip_empty`. -/
def to_xml_tree (s : ClassState) (vals : List String) (skipEmpty : Bool) :
    Except XmlError Element :=
  match s.serializer with
  | none => .error (.assertionError s.className)
  | some ser =>
      let el := serializeModel ser vals
      .ok (if skipEmpty then pruneEmpty el else el)

mutual

/-- Modelled from the spec: the external `etree.tostring` adapter —
render an element tree to markup text. -/
def renderElement : Element → String
  | .mk t attrs children text =>
      "<" ++ t ++ (attrs.map (fun kv => " " ++ kv.1 ++ "=" ++ kv.2)).foldl (· ++ ·) ""
        ++ ">" ++ (match text with | some s => s | none => "")
        ++ renderChildren children ++ "</" ++ t ++ ">"

/-- Rendering of a list of child elements in order. -/
def renderChildren : List Element → String
  | [] => ""
  | e :: es => renderElement e ++ renderChildren es

end

/-- `BaseXmlModel.to_xml` (model.py lines 369-378): serialize to a tree and
render it with the external `etree.tostring`. -/
def to_xml (s : ClassState) (vals : List String) (skipEmpty : Bool) :
    Except XmlError String :=
  (to_xml_tree s vals skipEmpty).map renderElement

/-! ## Proof-support definitions -/

/-- The attribute binding a field node contributes to the owning element. -/
def fieldAttrPair : FieldDescriptor → String → Option (String × String)
  | .attrD n, v => some (n, v)
  | .elemD _, _ => none
  | .wrappedD _ _, _ => none

/-- The child element a field node contributes to the owning element. -/
def fieldChildElem : FieldDescriptor → String → Option Element
  | .attrD _, _ => none
  | .elemD t, v => some ⟨t, [], [], some v⟩
  | .wrappedD p inner, v => some (serializeField inner v ⟨p, [], [], none⟩)

/-- A class state whose serializer graph is present, over a given schema. -/
def readyState (schema : List FieldDescriptor) : ClassState :=
  { className := "Model", isRootModel := false, hasGenericParams := false,
    rootFieldAnn := none, pydanticComplete := true, tag := none, ns := none,
    nsmap := none, fieldSchema := schema,
    serializer := some ⟨"Model", schema⟩ }

/-- Attribute-only example schema. -/
def attrOnlySchema : List FieldDescriptor := [.attrD "id", .attrD "version"]

/-- Element-only example schema. -/
def elemOnlySchema : List FieldDescriptor := [.elemD "name", .elemD "city"]

/-- Wrapped example schema, with nesting through the wrapper. -/
def wrappedSchema : List FieldDescriptor :=
  [.wrappedD "meta" (.attrD "version"), .wrappedD "info" (.wrappedD "deep" (.elemD "note"))]

/-- Mixed-location example schema. -/
def mixedSchema : List FieldDescriptor :=
  [.attrD "id", .elemD "name", .wrappedD "meta" (.attrD "version")]

/-- A root-model class state with an outstanding generic parameter but a
concrete `root` annotation and a complete pydantic schema. -/
def rootGenericConcrete : ClassState :=
  { className := "M", isRootModel := true, hasGenericParams := true,
    rootFieldAnn := some .concrete, pydanticComplete := true, tag := none,
    ns := none, nsmap := none, fieldSchema := [], serializer := none }

/-! ## Lemmas about the serializer graph -/

lemma serializeField_tag (d : FieldDescriptor) (v : String) (el : Element) :
    (serializeField d v el).tag = el.tag := by
  cases d <;> rfl

lemma serializeField_eq (d : FieldDescriptor) (v : String) (el : Element) :
    serializeField d v el =
      ⟨el.tag, el.attrs ++ (fieldAttrPair d v).toList,
        el.children ++ (fieldChildElem d v).toList, el.text⟩ := by
  cases el; cases d <;> simp [serializeField, fieldAttrPair, fieldChildElem]

lemma serializeFold (l : List (FieldDescriptor × String)) (el : Element) :
    l.foldl (fun e dv => serializeField dv.1 dv.2 e) el =
      ⟨el.tag, el.attrs ++ l.filterMap (fun dv => fieldAttrPair dv.1 dv.2),
        el.children ++ l.filterMap (fun dv => fieldChildElem dv.1 dv.2), el.text⟩ := by
  induction l generalizing el with
  | nil => cases el; simp
  | cons dv rest ih =>
      obtain ⟨d, v⟩ := dv
      rw [List.foldl_cons, ih, serializeField_eq]
      cases d <;> simp [fieldAttrPair, fieldChildElem]

lemma serializeModel_eq (ser : CompiledSerializer) (vals : List String) :
    serializeModel ser vals =
      ⟨ser.element_name,
        (ser.schema.zip vals).filterMap (fun dv => fieldAttrPair dv.1 dv.2),
        (ser.schema.zip vals).filterMap (fun dv => fieldChildElem dv.1 dv.2), none⟩ := by
  unfold serializeModel
  rw [serializeFold]
  simp

lemma lookupAttr_of_nodup (l : List (String × String)) (k v : String)
    (hnd : (l.map Prod.fst).Nodup) (hmem : (k, v) ∈ l) : lookupAttr k l = some v := by
  induction l with
  | nil => simp at hmem
  | cons kv rest ih =>
      obtain ⟨k1, v1⟩ := kv
      rw [List.map_cons, List.nodup_cons] at hnd
      rcases List.mem_cons.mp hmem with heq | hmem1
      · rw [Prod.mk.injEq] at heq
        obtain ⟨hk, hv⟩ := heq
        subst hk; subst hv
        simp [lookupAttr]
      · have hne : k1 ≠ k := by
          intro h
          apply hnd.1
          rw [h]
          exact List.mem_map.mpr ⟨(k, v), hmem1, rfl⟩
        simp only [lookupAttr, if_neg hne]
        exact ih hnd.2 hmem1

lemma filter_tag_eq_nil (l : List Element) (t : String)
    (hnot : t ∉ l.map Element.tag) : l.filter (fun x => x.tag = t) = [] := by
  rw [List.filter_eq_nil_iff]
  intro a ha
  simp only [decide_eq_true_eq]
  intro h
  exact hnot (List.mem_map.mpr ⟨a, ha, h⟩)

lemma filter_tag_singleton (l : List Element) (c : Element)
    (hnd : (l.map Element.tag).Nodup) (hmem : c ∈ l) :
    l.filter (fun x => x.tag = c.tag) = [c] := by
  induction l with
  | nil => simp at hmem
  | cons x rest ih =>
      rw [List.map_cons, List.nodup_cons] at hnd
      by_cases hx : x.tag = c.tag
      · have hcx : c = x := by
          rcases List.mem_cons.mp hmem with h | h
          · exact h
          · exact absurd (hx ▸ List.mem_map.mpr ⟨c, h, rfl⟩) hnd.1
        subst hcx
        simp only [List.filter_cons, decide_eq_true_eq, if_pos rfl]
        rw [filter_tag_eq_nil rest c.tag hnd.1]
        simp
      · have hmem1 : c ∈ rest := by
          rcases List.mem_cons.mp hmem with h | h
          · exact absurd (h ▸ rfl) hx
          · exact h
        simp only [List.filter_cons, decide_eq_true_eq, if_neg hx]
        exact ih hnd.2 hmem1

lemma deserialize_serialize_inner (inner : FieldDescriptor) (v : String) (p : String) :
    deserializeField (serializeField inner v ⟨p, [], [], none⟩) inner = .ok (some v) := by
  induction inner generalizing p with
  | attrD n => simp [serializeField, deserializeField, lookupAttr]
  | elemD t => simp [serializeField, deserializeField, findStrict, Except.map]
  | wrappedD q i ih =>
      have htag : (serializeField i v ⟨q, [], [], none⟩).tag = q := serializeField_tag ..
      simp only [serializeField, deserializeField, findStrict, List.nil_append,
        List.filter_cons, List.filter_nil, htag, decide_eq_true_eq, if_pos rfl]
      exact ih q

lemma fieldAttrPair_attrD (n v : String) : fieldAttrPair (.attrD n) v = some (n, v) := rfl

lemma fieldAttrPair_elemD (t v : String) : fieldAttrPair (.elemD t) v = none := rfl

lemma fieldAttrPair_wrappedD (p v : String) (i : FieldDescriptor) :
    fieldAttrPair (.wrappedD p i) v = none := rfl

lemma fieldChildElem_attrD (n v : String) : fieldChildElem (.attrD n) v = none := rfl

lemma fieldChildElem_elemD (t v : String) :
    fieldChildElem (.elemD t) v = some ⟨t, [], [], some v⟩ := rfl

lemma fieldChildElem_wrappedD (p v : String) (i : FieldDescriptor) :
    fieldChildElem (.wrappedD p i) v = some (serializeField i v ⟨p, [], [], none⟩) := rfl

lemma attrName_attrD (n : String) : attrName (.attrD n) = some n := rfl

lemma attrName_elemD (t : String) : attrName (.elemD t) = none := rfl

lemma attrName_wrappedD (p : String) (i : FieldDescriptor) : attrName (.wrappedD p i) = none := rfl

lemma topTag_attrD (n : String) : topTag (.attrD n) = none := rfl

lemma topTag_elemD (t : String) : topTag (.elemD t) = some t := rfl

lemma topTag_wrappedD (p : String) (i : FieldDescriptor) : topTag (.wrappedD p i) = some p := rfl

lemma attrKeys_eq (zp : List (FieldDescriptor × String)) :
    (zp.filterMap (fun dv => fieldAttrPair dv.1 dv.2)).map Prod.fst =
      zp.filterMap (fun dv => attrName dv.1) := by
  induction zp with
  | nil => simp
  | cons dv rest ih =>
      obtain ⟨d, v⟩ := dv
      cases d <;>
        simp [List.filterMap_cons, fieldAttrPair_attrD, fieldAttrPair_elemD,
          fieldAttrPair_wrappedD, attrName_attrD, attrName_elemD, attrName_wrappedD, ih]

lemma childTags_eq (zp : List (FieldDescriptor × String)) :
    (zp.filterMap (fun dv => fieldChildElem dv.1 dv.2)).map Element.tag =
      zp.filterMap (fun dv => topTag dv.1) := by
  induction zp with
  | nil => simp
  | cons dv rest ih =>
      obtain ⟨d, v⟩ := dv
      cases d <;>
        simp [List.filterMap_cons, fieldChildElem_attrD, fieldChildElem_elemD,
          fieldChildElem_wrappedD, topTag_attrD, topTag_elemD, topTag_wrappedD, ih,
          serializeField_tag]

lemma zip_filterMap_fst {β : Type} (schema : List FieldDescriptor) (vals : List String)
    (f : FieldDescriptor → Option β) (hlen : schema.length ≤ vals.length) :
    (schema.zip vals).filterMap (fun dv => f dv.1) = schema.filterMap f := by
  have h1 := List.filterMap_map Prod.fst f (schema.zip vals)
  rw [List.map_fst_zip schema vals hlen] at h1
  exact h1.symm

lemma deserializeField_root (en : String) (schema : List FieldDescriptor) (vals : List String)
    (hwf : wfSchema schema) (hlen : schema.length = vals.length)
    {d : FieldDescriptor} {v : String} (hmem : (d, v) ∈ schema.zip vals) :
    deserializeField (serializeModel ⟨en, schema⟩ vals) d = .ok (some v) := by
  rw [serializeModel_eq]
  have hchildnd :
      ((schema.zip vals).filterMap (fun dv => fieldChildElem dv.1 dv.2)).map Element.tag
        |>.Nodup := by
    rw [childTags_eq, zip_filterMap_fst schema vals topTag (le_of_eq hlen)]
    exact hwf.2
  cases d with
  | attrD n =>
      have hkeys :
          ((schema.zip vals).filterMap (fun dv => fieldAttrPair dv.1 dv.2)).map Prod.fst
            = schema.filterMap attrName := by
        rw [attrKeys_eq, zip_filterMap_fst schema vals attrName (le_of_eq hlen)]
      have hnd := hkeys ▸ hwf.1
      have hmemA : (n, v) ∈ (schema.zip vals).filterMap (fun dv => fieldAttrPair dv.1 dv.2) :=
        List.mem_filterMap.mpr ⟨(.attrD n, v), hmem, rfl⟩
      simp only [deserializeField]
      rw [lookupAttr_of_nodup _ n v hnd hmemA]
  | elemD t =>
      have hmemC : (⟨t, [], [], some v⟩ : Element) ∈
          (schema.zip vals).filterMap (fun dv => fieldChildElem dv.1 dv.2) :=
        List.mem_filterMap.mpr ⟨(.elemD t, v), hmem, rfl⟩
      have hfilter := filter_tag_singleton _ _ hchildnd hmemC
      simp [deserializeField, findStrict, hfilter, Except.map]
  | wrappedD p inner =>
      have hmemC : serializeField inner v ⟨p, [], [], none⟩ ∈
          (schema.zip vals).filterMap (fun dv => fieldChildElem dv.1 dv.2) :=
        List.mem_filterMap.mpr ⟨(.wrappedD p inner, v), hmem, rfl⟩
      have hfilter := filter_tag_singleton _ _ hchildnd hmemC
      rw [serializeField_tag] at hfilter
      simp only [deserializeField, findStrict, hfilter]
      exact deserialize_serialize_inner inner v p

lemma deserializeFields_all (el : Element) (schema : List FieldDescriptor) (vals : List String)
    (hlen : schema.length = vals.length)
    (h : ∀ d v, (d, v) ∈ schema.zip vals → deserializeField el d = .ok (some v)) :
    deserializeFields el schema = .ok (vals.map some) := by
  induction schema generalizing vals with
  | nil =>
      cases vals with
      | nil => simp [deserializeFields]
      | cons v vs => simp at hlen
  | cons d rest ih =>
      cases vals with
      | nil => simp at hlen
      | cons v vs =>
          have h1 : deserializeField el d = .ok (some v) := by
            apply h
            rw [List.zip_cons_cons]
            exact List.mem_cons_self _ _
          have h2 : deserializeFields el rest = .ok (vs.map some) := by
            apply ih vs (by simpa using hlen)
            intro d1 v1 hm
            apply h
            rw [List.zip_cons_cons]
            exact List.mem_cons_of_mem _ hm
          simp [deserializeFields, h1, h2]

lemma constructRecord_somes (vals : List String) :
    constructRecord (vals.map some) = .ok vals := by
  induction vals with
  | nil => simp [constructRecord]
  | cons v vs ih => simp [constructRecord, ih]

lemma deserializeField_ne_parsing (d : FieldDescriptor) (el : Element) (a e : String) :
    deserializeField el d ≠ .error (.parsingError a e) := by
  induction d generalizing el with
  | attrD n => simp [deserializeField]
  | elemD t =>
      rcases hf : el.children.filter (fun c => c.tag = t) with _ | ⟨c, _ | ⟨c2, cs⟩⟩ <;>
        simp [deserializeField, findStrict, hf, Except.map]
  | wrappedD p inner ih =>
      rcases hf : el.children.filter (fun c => c.tag = p) with _ | ⟨c1, _ | ⟨c2, cs⟩⟩
      · simp [deserializeField, findStrict, hf, Except.bind]
      · simp only [deserializeField, findStrict, hf]
        exact ih c1
      · simp [deserializeField, findStrict, hf, Except.bind]

lemma deserializeFields_ne_parsing (schema : List FieldDescriptor) (el : Element) (a e : String) :
    deserializeFields el schema ≠ .error (.parsingError a e) := by
  induction schema with
  | nil => simp [deserializeFields]
  | cons d rest ih =>
      cases h1 : deserializeField el d with
      | error er =>
          simp only [deserializeFields, h1]
          intro hcontra
          rw [Except.error.injEq] at hcontra
          exact deserializeField_ne_parsing d el a e (by rw [h1, hcontra])
      | ok v =>
          cases h2 : deserializeFields el rest with
          | error er =>
              simp only [deserializeFields, h1, h2]
              intro hcontra
              rw [Except.error.injEq] at hcontra
              exact ih (by rw [h2, hcontra])
          | ok vs => simp [deserializeFields, h1, h2]

lemma constructRecord_ne_parsing (l : List (Option String)) (a e : String) :
    constructRecord l ≠ .error (.parsingError a e) := by
  induction l with
  | nil => simp [constructRecord]
  | cons o rest ih =>
      cases o with
      | none => simp [constructRecord]
      | some v =>
          cases h : constructRecord rest with
          | error er =>
              simp only [constructRecord, h]
              intro hcontra
              rw [Except.error.injEq] at hcontra
              exact ih (by rw [h, hcontra])
          | ok vs => simp [constructRecord, h]

/-! ## Lemmas about the type-construction hook and rebuild -/

lemma buildSerializer_fst (flag : Bool) (s : ClassState) (reg : Registry) :
    (buildSerializer flag s reg).1 = { s with serializer := computeSerializer s } := by
  unfold buildSerializer computeSerializer
  split_ifs <;> rfl

lemma computeSerializer_serializer_irrel (s : ClassState) (x : Option CompiledSerializer) :
    computeSerializer { s with serializer := x } = computeSerializer s := rfl

lemma modelRebuild_fst (resolves flag : Bool) (s : ClassState) (reg : Registry) :
    (modelRebuild resolves flag s reg).1 =
      if s.serializer = none ∧ (s.pydanticComplete || resolves) = true then
        { s with pydanticComplete := true,
                 serializer := computeSerializer { s with pydanticComplete := true } }
      else
        { s with pydanticComplete := s.pydanticComplete || resolves } := by
  unfold modelRebuild
  by_cases h : s.serializer = none ∧ (s.pydanticComplete || resolves) = true
  · obtain ⟨h1, h2⟩ := h
    rw [if_pos ⟨h1, h2⟩, if_pos ⟨h1, h2⟩, buildSerializer_fst]
    rw [h2]
  · rw [if_neg h, if_neg h]

lemma modelRebuild_idem (resolves flag : Bool) (s : ClassState) (reg reg2 : Registry) :
    (modelRebuild resolves flag (modelRebuild resolves flag s reg).1 reg2).1 =
      (modelRebuild resolves flag s reg).1 := by
  rw [modelRebuild_fst, modelRebuild_fst]
  by_cases h : s.serializer = none ∧ (s.pydanticComplete || resolves) = true
  · rw [if_pos h]
    cases hcs : computeSerializer { s with pydanticComplete := true } with
    | some u => simp [hcs]
    | none =>
        have h4 : computeSerializer
              { s with pydanticComplete := true, serializer := (none : Option CompiledSerializer) }
            = computeSerializer { s with pydanticComplete := true } := rfl
        simp [hcs, h4]
  · rw [if_neg h]
    rcases hs : s.serializer with _ | ser
    · rw [hs] at h
      have h2 : (s.pydanticComplete || resolves) = false := by
        by_cases hb : (s.pydanticComplete || resolves) = true
        · exact absurd ⟨rfl, hb⟩ h
        · exact Bool.eq_false_iff.mpr hb
      have h3 : s.pydanticComplete = false ∧ resolves = false := by
        rcases Bool.or_eq_false_iff.mp h2 with ⟨hp, hr⟩
        exact ⟨hp, hr⟩
      simp [h3.1, h3.2]
    · simp [hs]

/-! ## Claim theorems -/

/-- C4: when the serializer graph is absent (`__xml_serializer__ is None`),
every conversion entry point — `from_xml_tree`, `from_xml`, `to_xml_tree`
and `to_xml` — fails fast with the assertion failure and never returns a
value. -/
theorem uncompiled_entry_points_assert (s : ClassState) (root doc : Element)
    (vals : List String) (se : Bool) (h : s.serializer = none) :
    from_xml_tree s root = .error (.assertionError s.className)
  ∧ from_xml s doc = .error (.assertionError s.className)
  ∧ to_xml_tree s vals se = .error (.assertionError s.className)
  ∧ to_xml s vals se = .error (.assertionError s.className) := by
  refine ⟨?_, ?_, ?_, ?_⟩ <;>
    simp [from_xml_tree, from_xml, to_xml_tree, to_xml, h, Except.map]

/-- Witness for C4 at a concrete partially-initialized class state. -/
theorem uncompiled_entry_points_assert_witness :
    rootGenericConcrete.serializer = none
  ∧ from_xml_tree rootGenericConcrete ⟨"M", [], [], none⟩
      = .error (.assertionError "M") :=
  ⟨rfl,
    (uncompiled_entry_points_assert rootGenericConcrete ⟨"M", [], [], none⟩
      ⟨"M", [], [], none⟩ [] false rfl).1⟩

/-- C3 counterexample: a root model with an outstanding generic parameter
but a concrete `root` annotation and a complete schema is compiled — the
serializer is not `None` although the type still has unresolved generic
parameters. -/
theorem build_serializer_generic_counterexample :
    rootGenericConcrete.hasGenericParams = true
  ∧ rootGenericConcrete.pydanticComplete = true
  ∧ (buildSerializer false rootGenericConcrete ([] : Registry)).1.serializer ≠ none := by
  refine ⟨rfl, rfl, ?_⟩
  rw [buildSerializer_fst]
  decide

/-- C3 amended: `__build_serializer__` leaves the serializer absent exactly
when the pydantic schema is incomplete, or generic parameters are
outstanding and the model is a non-root model or a root model whose `root`
field is absent or annotated with a bare type variable.  A root model with
outstanding generic parameters but a concrete `root` annotation and a
complete schema is compiled. -/
theorem build_serializer_deferral_characterization (flag : Bool) (s : ClassState)
    (reg : Registry) :
    (buildSerializer flag s reg).1.serializer = none ↔
      (s.pydanticComplete = false ∨
        (s.hasGenericParams = true ∧
          (s.isRootModel = false ∨ s.rootFieldAnn = none ∨
            s.rootFieldAnn = some .typeVar))) := by
  obtain ⟨cn, ir, gp, ra, pc, tg, nsv, nm, fs, sz⟩ := s
  rw [buildSerializer_fst]
  show computeSerializer _ = none ↔ _
  cases ir <;> cases gp <;> cases pc <;> rcases ra with _ | _ | _ <;>
    simp [computeSerializer, compileSerializer]

/-- C8: for root models that still carry generic parameters (with a
complete schema), compilation is deferred exactly when the `root` field is
absent or annotated with a bare type variable; for non-root models any
outstanding generic parameter always defers compilation. -/
theorem root_model_generic_root_field_gate :
    (∀ (flag : Bool) (s : ClassState) (reg : Registry),
        s.isRootModel = true → s.hasGenericParams = true → s.pydanticComplete = true →
          ((buildSerializer flag s reg).1.serializer = none ↔
            (s.rootFieldAnn = none ∨ s.rootFieldAnn = some .typeVar)))
  ∧ (∀ (flag : Bool) (s : ClassState) (reg : Registry),
        s.isRootModel = false → s.hasGenericParams = true →
          (buildSerializer flag s reg).1.serializer = none) := by
  constructor
  · intro flag s reg hroot hgp hpc
    rw [buildSerializer_fst]
    show computeSerializer s = none ↔ _
    rcases hra : s.rootFieldAnn with _ | _ | _ <;>
      simp [computeSerializer, compileSerializer, hroot, hgp, hpc, hra]
  · intro flag s reg hroot hgp
    rw [buildSerializer_fst]
    show computeSerializer s = none
    simp [computeSerializer, hroot, hgp]

/-- Witness for C8: the gate applied at concrete class states — deferral
for a bare type-variable `root` annotation, compilation for a concrete
one. -/
theorem root_model_generic_root_field_gate_witness :
    (buildSerializer true rootGenericConcrete ([] : Registry)).1.serializer ≠ none := by
  intro h
  have h2 := (root_model_generic_root_field_gate.1 true rootGenericConcrete
    ([] : Registry) rfl rfl rfl).mp h
  simp [rootGenericConcrete] at h2

/-- C5: `model_rebuild` retries serializer compilation exactly when the
graph is absent and the schema has become complete; when the serializer is
already built it is a no-op on the cached serializer and on the Registry;
and the operation is idempotent — the second call leaves the class state
of the first call unchanged. -/
theorem model_rebuild_retry_idempotent (resolves flag : Bool) (s : ClassState)
    (reg : Registry) :
    (∀ ser, s.serializer = some ser →
        (modelRebuild resolves flag s reg).1.serializer = some ser
      ∧ (modelRebuild resolves flag s reg).2 = reg)
  ∧ ((s.serializer = none ∧ (s.pydanticComplete || resolves) = true) →
      modelRebuild resolves flag s reg =
        buildSerializer flag { s with pydanticComplete := true } reg)
  ∧ ((s.serializer = none ∧ (s.pydanticComplete || resolves) = false) →
      (modelRebuild resolves flag s reg).1.serializer = none
      ∧ (modelRebuild resolves flag s reg).2 = reg)
  ∧ (∀ reg2,
      (modelRebuild resolves flag (modelRebuild resolves flag s reg).1 reg2).1
        = (modelRebuild resolves flag s reg).1) := by
  refine ⟨?_, ?_, ?_, ?_⟩
  · intro ser hs
    constructor <;> simp [modelRebuild, hs]
  · rintro ⟨h1, h2⟩
    have hupd : { s with pydanticComplete := s.pydanticComplete || resolves }
        = { s with pydanticComplete := true } := by rw [h2]
    unfold modelRebuild
    rw [if_pos ⟨h1, h2⟩, hupd]
  · rintro ⟨h1, h2⟩
    constructor <;> simp [modelRebuild, h1, h2]
  · intro reg2
    exact modelRebuild_idem resolves flag s reg reg2

/-- Witness for C5: the no-op clause at an already-compiled state and the
retry clause at a deferred-then-resolved state. -/
theorem model_rebuild_retry_idempotent_witness :
    ((modelRebuild false true (readyState []) ([] : Registry)).1.serializer
        = some ⟨"Model", []⟩
      ∧ (modelRebuild false true (readyState []) ([] : Registry)).2 = [])
  ∧ modelRebuild true true rootGenericConcrete ([] : Registry)
      = buildSerializer true { rootGenericConcrete with pydanticComplete := true }
          ([] : Registry) :=
  ⟨(model_rebuild_retry_idempotent false true (readyState []) ([] : Registry)).1
      ⟨"Model", []⟩ rfl,
    (model_rebuild_retry_idempotent true true rootGenericConcrete ([] : Registry)).2.1
      ⟨rfl, rfl⟩⟩

/-- C9: each type-level xml setting not supplied at class-definition time
is inherited from the nearest ancestor that set it, and when no ancestor
set it the defaults apply: `tag`/`ns`/`nsmap`/`skip_empty` are `None`,
`ns_attrs` is `False` and `search_mode` is `STRICT`. -/
theorem subclass_settings_inheritance (chain : List SubclassKw) :
    (settingsOfChain chain).tag = chain.findSome? SubclassKw.tag
  ∧ (settingsOfChain chain).ns = chain.findSome? SubclassKw.ns
  ∧ (settingsOfChain chain).nsmap = chain.findSome? SubclassKw.nsmap
  ∧ (settingsOfChain chain).ns_attrs = (chain.findSome? SubclassKw.ns_attrs).getD false
  ∧ (settingsOfChain chain).skip_empty = chain.findSome? SubclassKw.skip_empty
  ∧ (settingsOfChain chain).search_mode
      = (chain.findSome? SubclassKw.search_mode).getD SearchMode.STRICT := by
  induction chain with
  | nil => exact ⟨rfl, rfl, rfl, rfl, rfl, rfl⟩
  | cons kw rest ih =>
      obtain ⟨h1, h2, h3, h4, h5, h6⟩ := ih
      have hcons : settingsOfChain (kw :: rest) = initSubclass (settingsOfChain rest) kw := rfl
      refine ⟨?_, ?_, ?_, ?_, ?_, ?_⟩ <;> rw [hcons, List.findSome?_cons]
      · cases hk : kw.tag <;> simp [initSubclass, hk, Option.orElse, h1]
      · cases hk : kw.ns <;> simp [initSubclass, hk, Option.orElse, h2]
      · cases hk : kw.nsmap <;> simp [initSubclass, hk, Option.orElse, h3]
      · cases hk : kw.ns_attrs <;> simp [initSubclass, hk, h4]
      · cases hk : kw.skip_empty <;> simp [initSubclass, hk, Option.orElse, h5]
      · cases hk : kw.search_mode <;> simp [initSubclass, hk, h6]

/-- C6: every descriptor constructor (`attr`, `element`, `wrapped`,
`computed_attr`, `computed_element`) updates the Namespace Registry at
declaration time exactly when the global auto-register option is enabled
and a non-empty namespace map is supplied; otherwise the Registry is
unchanged. -/
theorem declaration_time_ns_registration (flag : Bool) (reg : Registry)
    (name tag ns : Option String) (p : String) (entity : Option FieldInfo)
    (nsmap : Option NsMap) (kwargs : PdFieldKwargs) :
    ((flag = true ∧ nsmapTruthy nsmap = true) →
        (attr flag reg name ns nsmap kwargs).2 = registerNsmap (nsmap.getD []) reg
      ∧ (element flag reg tag ns nsmap kwargs).2 = registerNsmap (nsmap.getD []) reg
      ∧ (wrapped flag reg p entity ns nsmap kwargs).2 = registerNsmap (nsmap.getD []) reg
      ∧ (computed_attr flag reg name ns nsmap).2 = registerNsmap (nsmap.getD []) reg
      ∧ (computed_element flag reg tag ns nsmap).2 = registerNsmap (nsmap.getD []) reg)
  ∧ ((flag = false ∨ nsmapTruthy nsmap = false) →
        (attr flag reg name ns nsmap kwargs).2 = reg
      ∧ (element flag reg tag ns nsmap kwargs).2 = reg
      ∧ (wrapped flag reg p entity ns nsmap kwargs).2 = reg
      ∧ (computed_attr flag reg name ns nsmap).2 = reg
      ∧ (computed_element flag reg tag ns nsmap).2 = reg) := by
  constructor
  · rintro ⟨hf, ht⟩
    refine ⟨?_, ?_, ?_, ?_, ?_⟩ <;>
      simp [attr, element, wrapped, computed_attr, computed_element, computedEntity,
        xmlEntityInfoInit, registerIf, hf, ht]
  · intro h
    have hcond : (flag && nsmapTruthy nsmap) = false := by
      rcases h with h | h <;> simp [h]
    refine ⟨?_, ?_, ?_, ?_, ?_⟩ <;>
      simp [attr, element, wrapped, computed_attr, computed_element, computedEntity,
        xmlEntityInfoInit, registerIf, hcond]

/-- Witness for C6: with the option enabled and a non-empty map the
Registry receives the binding; with the option disabled it does not. -/
theorem declaration_time_ns_registration_witness :
    (attr true ([] : Registry) none none (some [("x", "urn:example")])
        ⟨none, none, none, none⟩).2
      = registerNsmap [("x", "urn:example")] ([] : Registry)
  ∧ (computed_element false ([] : Registry) none none (some [("x", "urn:example")])).2
      = ([] : Registry) :=
  ⟨((declaration_time_ns_registration true ([] : Registry) none none none "w" none
      (some [("x", "urn:example")]) ⟨none, none, none, none⟩).1 ⟨rfl, rfl⟩).1,
    ((declaration_time_ns_registration false ([] : Registry) none none none "w" none
      (some [("x", "urn:example")]) ⟨none, none, none, none⟩).2 (Or.inl rfl)).2.2.2.2⟩

/-- C7: descriptors built by `attr` and `element` always carry
`wrapped = None`; the `wrapped` helper builds a `WRAPPED`-located
descriptor and keeps an inner descriptor only when the supplied entity is
itself an `XmlEntityInfo`; hence the `wrapped` slot is set only on
`WRAPPED`-located descriptors. -/
theorem wrapped_descriptor_invariant (flag : Bool) (reg : Registry)
    (name tag ns : Option String) (nsmap : Option NsMap) (kwargs : PdFieldKwargs)
    (p : String) (entity : Option FieldInfo) :
    (attr flag reg name ns nsmap kwargs).1.wrappedOf = none
  ∧ (attr flag reg name ns nsmap kwargs).1.locationOf = some .ATTRIBUTE
  ∧ (element flag reg tag ns nsmap kwargs).1.wrappedOf = none
  ∧ (element flag reg tag ns nsmap kwargs).1.locationOf = some .ELEMENT
  ∧ (wrapped flag reg p entity ns nsmap kwargs).1.locationOf = some .WRAPPED
  ∧ ((wrapped flag reg p entity ns nsmap kwargs).1.wrappedOf ≠ none →
        (wrapped flag reg p entity ns nsmap kwargs).1.wrappedOf = entity
      ∧ ∃ w, entity = some w ∧ w.isXmlEntity = true)
  ∧ (∀ w, entity = some w → w.isXmlEntity = false →
        (wrapped flag reg p entity ns nsmap kwargs).1.wrappedOf = none) := by
  refine ⟨rfl, rfl, rfl, rfl, rfl, ?_, ?_⟩
  · intro hne
    cases entity with
    | none => exact absurd rfl hne
    | some w =>
        cases hw : w.isXmlEntity with
        | true =>
            constructor
            · simp [wrapped, xmlEntityInfoInit, FieldInfo.wrappedOf, hw]
            · exact ⟨w, rfl, hw⟩
        | false =>
            exact absurd (by simp [wrapped, xmlEntityInfoInit, FieldInfo.wrappedOf, hw]) hne
  · intro w hw hfalse
    subst hw
    simp [wrapped, xmlEntityInfoInit, FieldInfo.wrappedOf, hfalse]

/-- Witness for C7: the `wrapped` helper applied to an `XmlEntityInfo`
entity keeps it as the inner descriptor. -/
theorem wrapped_descriptor_invariant_witness :
    (wrapped true ([] : Registry) "meta"
        (some (.xml (some .ELEMENT) none none none none ⟨none, none, none, none⟩))
        none none ⟨none, none, none, none⟩).1.wrappedOf
      = some (.xml (some .ELEMENT) none none none none ⟨none, none, none, none⟩)
  ∧ ∃ w, (some (.xml (some .ELEMENT) none none none none
        ⟨none, none, none, none⟩) : Option FieldInfo) = some w ∧ w.isXmlEntity = true :=
  (wrapped_descriptor_invariant true ([] : Registry) none none none none
      ⟨none, none, none, none⟩ "meta"
      (some (.xml (some .ELEMENT) none none none none ⟨none, none, none, none⟩))).2.2.2.2.2.1
    (by simp [wrapped, xmlEntityInfoInit, FieldInfo.wrappedOf, FieldInfo.isXmlEntity])

/-- C10 counterexample: when `wrapped` is given an inner entity, the
entity's slots overwrite the caller's kwargs before the alias defaulting,
so a caller-supplied `alias` does not become the missing
`serialization_alias`. -/
theorem alias_defaulting_counterexample :
    ¬ ((wrapped true ([] : Registry) "w" (some (.plain ⟨none, none, none, none⟩))
          none none ⟨some "b", none, none, none⟩).1.kwargsOf.serialization_alias
        = some "b") := by
  simp [wrapped, xmlEntityInfoInit, FieldInfo.kwargsOf, Option.orElse]

/-- C10 amended: the alias defaulting applies to the kwargs as they stand
after the wrapped-entity slot copy: for `attr`, `element` and `wrapped`
without an inner entity, a missing `serialization_alias` (respectively
`validation_alias`) is filled from the caller-supplied `alias` and
explicitly supplied values are preserved; when `wrapped` is given an inner
entity, the entity's own alias settings replace the caller's kwargs first
and the defaulting applies to those. -/
theorem alias_defaulting_amended (flag : Bool) (reg : Registry)
    (name tag ns : Option String) (nsmap : Option NsMap) (p : String)
    (kwargs : PdFieldKwargs) (w : FieldInfo) (a x y : String) :
    ((attr flag reg name ns nsmap kwargs).1.kwargsOf.serialization_alias
        = kwargs.serialization_alias.orElse (fun _ => kwargs.aliasKw))
  ∧ ((attr flag reg name ns nsmap kwargs).1.kwargsOf.validation_alias
        = kwargs.validation_alias.orElse (fun _ => kwargs.aliasKw))
  ∧ ((element flag reg tag ns nsmap kwargs).1.kwargsOf.serialization_alias
        = kwargs.serialization_alias.orElse (fun _ => kwargs.aliasKw))
  ∧ ((element flag reg tag ns nsmap kwargs).1.kwargsOf.validation_alias
        = kwargs.validation_alias.orElse (fun _ => kwargs.aliasKw))
  ∧ ((wrapped flag reg p none ns nsmap kwargs).1.kwargsOf.serialization_alias
        = kwargs.serialization_alias.orElse (fun _ => kwargs.aliasKw))
  ∧ ((wrapped flag reg p none ns nsmap kwargs).1.kwargsOf.validation_alias
        = kwargs.validation_alias.orElse (fun _ => kwargs.aliasKw))
  ∧ ((wrapped flag reg p (some w) ns nsmap kwargs).1.kwargsOf.serialization_alias
        = w.kwargsOf.serialization_alias.orElse (fun _ => w.kwargsOf.aliasKw))
  ∧ ((wrapped flag reg p (some w) ns nsmap kwargs).1.kwargsOf.validation_alias
        = w.kwargsOf.validation_alias.orElse (fun _ => w.kwargsOf.aliasKw))
  ∧ ((attr flag reg name ns nsmap
        ⟨some a, some x, some y, kwargs.defaultValue⟩).1.kwargsOf.serialization_alias
      = some x)
  ∧ ((attr flag reg name ns nsmap
        ⟨some a, some x, some y, kwargs.defaultValue⟩).1.kwargsOf.validation_alias
      = some y) :=
  ⟨rfl, rfl, rfl, rfl, rfl, rfl, rfl, rfl, rfl, rfl⟩

/-- C2: `from_xml_tree` (and hence `from_xml`) raises `ParsingError`
exactly on a root-tag mismatch against the compiled serializer's own
qualified element name (which carries the namespace); when the tag
matches, deserialization proceeds and no `ParsingError` arises at the
entry point. -/
theorem root_tag_matching (s : ClassState) (ser : CompiledSerializer) (root : Element)
    (hser : s.serializer = some ser) :
    (root.tag ≠ ser.element_name →
        from_xml_tree s root = .error (.parsingError root.tag ser.element_name)
      ∧ from_xml s root = .error (.parsingError root.tag ser.element_name))
  ∧ (root.tag = ser.element_name →
        from_xml_tree s root = (deserializeModel ser root).bind constructRecord
      ∧ from_xml s root = from_xml_tree s root
      ∧ ∀ a e, from_xml_tree s root ≠ .error (.parsingError a e)) := by
  constructor
  · intro hne
    constructor <;> simp [from_xml_tree, from_xml, hser, hne]
  · intro heq
    refine ⟨by simp [from_xml_tree, hser, heq], rfl, ?_⟩
    intro a e
    simp only [from_xml_tree, hser, heq, if_pos]
    cases hd : deserializeModel ser root with
    | error er =>
        intro hcontra
        have her : er = .parsingError a e := by
          have hb : Except.bind (Except.error er) constructRecord
              = (Except.error er : Except XmlError (List String)) := rfl
          rw [hb, Except.error.injEq] at hcontra
          exact hcontra
        exact deserializeFields_ne_parsing ser.schema root a e (by rw [← her]; exact hd)
    | ok fs =>
        exact constructRecord_ne_parsing fs a e

/-- Witness for C2: parsing `<Other/>` against a type expecting root tag
`Model` yields the `ParsingError`, while the matching tag proceeds into
field deserialization. -/
theorem root_tag_matching_witness :
    from_xml_tree (readyState mixedSchema) ⟨"Other", [], [], none⟩
      = .error (.parsingError "Other" "Model")
  ∧ from_xml_tree (readyState mixedSchema) ⟨"Model", [], [], none⟩
      = (deserializeModel ⟨"Model", mixedSchema⟩ ⟨"Model", [], [], none⟩).bind
          constructRecord :=
  ⟨((root_tag_matching (readyState mixedSchema) ⟨"Model", mixedSchema⟩
      ⟨"Other", [], [], none⟩ rfl).1 (by decide)).1,
    ((root_tag_matching (readyState mixedSchema) ⟨"Model", mixedSchema⟩
      ⟨"Model", [], [], none⟩ rfl).2 rfl).1⟩

/-- C1: for a record whose fields all carry concrete values, deserializing
the tree produced by serialization returns the record unchanged,
field by field, for any well-formed schema — attribute-only, element-only,
wrapped and mixed-location schemas alike. -/
theorem roundtrip_from_to_xml_tree (s : ClassState) (ser : CompiledSerializer)
    (vals : List String) (hser : s.serializer = some ser)
    (hwf : wfSchema ser.schema) (hlen : ser.schema.length = vals.length) :
    (to_xml_tree s vals false).bind (fun el => from_xml_tree s el) = .ok vals := by
  obtain ⟨en, schema⟩ := ser
  have htree : to_xml_tree s vals false = .ok (serializeModel ⟨en, schema⟩ vals) := by
    simp [to_xml_tree, hser]
  rw [htree]
  show from_xml_tree s (serializeModel ⟨en, schema⟩ vals) = .ok vals
  have htag : (serializeModel ⟨en, schema⟩ vals).tag = en := by
    rw [serializeModel_eq]
  have hdes : deserializeModel ⟨en, schema⟩ (serializeModel ⟨en, schema⟩ vals)
      = .ok (vals.map some) := by
    unfold deserializeModel
    exact deserializeFields_all _ schema vals hlen
      (fun d v hm => deserializeField_root en schema vals hwf hlen hm)
  simp only [from_xml_tree, hser, htag, if_pos, hdes]
  show constructRecord (vals.map some) = .ok vals
  exact constructRecord_somes vals

/-- Witness for C1: the round trip evaluated on concrete attribute-only,
element-only, wrapped and mixed-location schemas. -/
theorem roundtrip_from_to_xml_tree_witness :
    (wfSchema attrOnlySchema ∧
      (to_xml_tree (readyState attrOnlySchema) ["1", "2"] false).bind
          (fun el => from_xml_tree (readyState attrOnlySchema) el)
        = .ok ["1", "2"])
  ∧ (wfSchema elemOnlySchema ∧
      (to_xml_tree (readyState elemOnlySchema) ["alice", "paris"] false).bind
          (fun el => from_xml_tree (readyState elemOnlySchema) el)
        = .ok ["alice", "paris"])
  ∧ (wfSchema wrappedSchema ∧
      (to_xml_tree (readyState wrappedSchema) ["2", "hello"] false).bind
          (fun el => from_xml_tree (readyState wrappedSchema) el)
        = .ok ["2", "hello"])
  ∧ (wfSchema mixedSchema ∧
      (to_xml_tree (readyState mixedSchema) ["1", "alice", "2"] false).bind
          (fun el => from_xml_tree (readyState mixedSchema) el)
        = .ok ["1", "alice", "2"]) :=
  ⟨⟨by decide, roundtrip_from_to_xml_tree (readyState attrOnlySchema)
      ⟨"Model", attrOnlySchema⟩ ["1", "2"] rfl (by decide) (by decide)⟩,
    ⟨by decide, roundtrip_from_to_xml_tree (readyState elemOnlySchema)
      ⟨"Model", elemOnlySchema⟩ ["alice", "paris"] rfl (by decide) (by decide)⟩,
    ⟨by decide, roundtrip_from_to_xml_tree (readyState wrappedSchema)
      ⟨"Model", wrappedSchema⟩ ["2", "hello"] rfl (by decide) (by decide)⟩,
    ⟨by decide, roundtrip_from_to_xml_tree (readyState mixedSchema)
      ⟨"Model", mixedSchema⟩ ["1", "alice", "2"] rfl (by decide) (by decide)⟩⟩

end PydanticXml
